import Mathlib

/-!
Verification of the visible-page-range computation (`paginationTriggers`)
from the pagination chapter (src/chapters/06-pagination.md, BasePagination.vue).
The computed property is embedded as a pure function on `Int`
(JavaScript numbers restricted to the integer inputs all claims range over;
the threshold division `(visiblePagesCount - 1) / 2` is exact for the odd
`visiblePagesCount` the contract demands, so integer division is faithful there).
-/

namespace Pagination

/-- The `visiblePagesThreshold` local of `paginationTriggers`:
`(visiblePagesCount - 1) / 2`. -/
def visiblePagesThreshold (visiblePagesCount : Int) : Int :=
  (visiblePagesCount - 1) / 2

/-- JavaScript assignment `arr[arr.length - 1] = x`: replaces the last element
of a non-empty list; on the empty list, index `-1` is a plain property write and
the array itself is unchanged. -/
def setLast : List Int → Int → List Int
  | [], _ => []
  | [_], x => [x]
  | a :: b :: rest, x => a :: setLast (b :: rest) x

/-- The `paginationTriggers` computed property of BasePagination.vue.
`Array(visiblePagesCount - 1).fill(0)` followed by `.map((_, index) => base + index)`
is embedded as a map over `List.range (visiblePagesCount - 1).toNat`.
Scenario 1 (`currentPage <= visiblePagesThreshold + 1`): `arr[0] = 1`, map to
`arr[0] + index`, then `push(pageCount)`.
Scenario 2 (`currentPage >= pageCount - visiblePagesThreshold + 1`): map to
`pageCount - index`, then `reverse().unshift(1)`.
Scenario 3: `arr[0] = currentPage - visiblePagesThreshold + 1`, map to
`arr[0] + index`, then `unshift(1)` and overwrite the last slot with `pageCount`. -/
def paginationTriggers (currentPage pageCount visiblePagesCount : Int) : List Int :=
  if currentPage ≤ visiblePagesThreshold visiblePagesCount + 1 then
    ((List.range (visiblePagesCount - 1).toNat).map (fun i : Nat => 1 + (i : Int))) ++ [pageCount]
  else if currentPage ≥ pageCount - visiblePagesThreshold visiblePagesCount + 1 then
    1 :: ((List.range (visiblePagesCount - 1).toNat).map (fun i : Nat => pageCount - (i : Int))).reverse
  else
    setLast
      (1 :: (List.range (visiblePagesCount - 1).toNat).map
        (fun i : Nat => (currentPage - visiblePagesThreshold visiblePagesCount + 1) + (i : Int)))
      pageCount

/-- The scenario-1 guard of `paginationTriggers`, as a predicate. -/
def nearStart (currentPage visiblePagesCount : Int) : Prop :=
  currentPage ≤ visiblePagesThreshold visiblePagesCount + 1

/-- The scenario-2 guard of `paginationTriggers`, as a predicate. -/
def nearEnd (currentPage pageCount visiblePagesCount : Int) : Prop :=
  currentPage ≥ pageCount - visiblePagesThreshold visiblePagesCount + 1

theorem nearStart_iff (currentPage visiblePagesCount : Int) :
    nearStart currentPage visiblePagesCount ↔
      currentPage ≤ visiblePagesThreshold visiblePagesCount + 1 := Iff.rfl

theorem nearEnd_iff (currentPage pageCount visiblePagesCount : Int) :
    nearEnd currentPage pageCount visiblePagesCount ↔
      currentPage ≥ pageCount - visiblePagesThreshold visiblePagesCount + 1 := Iff.rfl

/-- The spec-side shape `k consecutive integers starting at a`. -/
def consecFrom (a : Int) : Nat → List Int
  | 0 => []
  | n + 1 => a :: consecFrom (a + 1) n

theorem consecFrom_succ_last (a : Int) (n : Nat) :
    consecFrom a (n + 1) = consecFrom a n ++ [a + n] := by
  induction n generalizing a with
  | zero => simp [consecFrom]
  | succ m ih =>
    show a :: consecFrom (a + 1) (m + 1) = (a :: consecFrom (a + 1) m) ++ [a + ((m + 1 : Nat) : Int)]
    rw [ih, List.cons_append]
    have h1 : (a + 1) + (m : Int) = a + ((m + 1 : Nat) : Int) := by push_cast; ring
    rw [h1]

theorem mem_consecFrom {x : Int} (a : Int) (n : Nat) :
    x ∈ consecFrom a n ↔ a ≤ x ∧ x < a + n := by
  induction n generalizing a with
  | zero => simp [consecFrom]
  | succ m ih =>
    show x ∈ a :: consecFrom (a + 1) m ↔ _
    rw [List.mem_cons, ih]
    push_cast
    omega

theorem length_consecFrom (a : Int) (n : Nat) : (consecFrom a n).length = n := by
  induction n generalizing a with
  | zero => rfl
  | succ m ih => simp [consecFrom, ih]

theorem pairwise_lt_consecFrom (a : Int) (n : Nat) :
    List.Pairwise (fun x y : Int => x < y) (consecFrom a n) := by
  induction n generalizing a with
  | zero => simp [consecFrom]
  | succ m ih =>
    show List.Pairwise _ (a :: consecFrom (a + 1) m)
    refine List.pairwise_cons.mpr ⟨fun y hy => ?_, ih (a + 1)⟩
    rw [mem_consecFrom] at hy
    omega

theorem map_range_add (a : Int) (n : Nat) :
    (List.range n).map (fun i : Nat => a + (i : Int)) = consecFrom a n := by
  induction n generalizing a with
  | zero => rfl
  | succ m ih =>
    rw [List.range_succ, List.map_append, ih, consecFrom_succ_last]
    simp

theorem reverse_map_range_sub (p : Int) (n : Nat) :
    ((List.range n).map (fun i : Nat => p - (i : Int))).reverse = consecFrom (p - n + 1) n := by
  induction n generalizing p with
  | zero => rfl
  | succ m ih =>
    rw [List.range_succ, List.map_append, List.reverse_append, ih]
    have h1 : p - ((m + 1 : Nat) : Int) + 1 = p - m := by push_cast; ring
    rw [h1]
    show [p - (m : Int)] ++ consecFrom (p - m + 1) m = consecFrom (p - m) (m + 1)
    rfl

theorem setLast_append (l : List Int) (b x : Int) :
    setLast (l ++ [b]) x = l ++ [x] := by
  induction l with
  | nil => rfl
  | cons a t ih =>
    cases t with
    | nil => rfl
    | cons c t2 =>
      show a :: setLast ((c :: t2) ++ [b]) x = a :: ((c :: t2) ++ [x])
      rw [ih]

theorem length_setLast (l : List Int) (x : Int) : (setLast l x).length = l.length := by
  induction l with
  | nil => rfl
  | cons a t ih =>
    cases t with
    | nil => rfl
    | cons c t2 =>
      show (a :: setLast (c :: t2) x).length = (a :: c :: t2).length
      simp only [List.length_cons, ih]

theorem paginationTriggers_of_nearStart (cp pc vc : Int)
    (h : cp ≤ visiblePagesThreshold vc + 1) :
    paginationTriggers cp pc vc = consecFrom 1 (vc - 1).toNat ++ [pc] := by
  unfold paginationTriggers
  rw [if_pos h, map_range_add]

theorem paginationTriggers_of_nearEnd (cp pc vc : Int)
    (h1 : ¬ cp ≤ visiblePagesThreshold vc + 1)
    (h2 : cp ≥ pc - visiblePagesThreshold vc + 1) :
    paginationTriggers cp pc vc =
      1 :: consecFrom (pc - ((vc - 1).toNat : Int) + 1) (vc - 1).toNat := by
  unfold paginationTriggers
  rw [if_neg h1, if_pos h2, reverse_map_range_sub]

theorem paginationTriggers_of_middle (cp pc vc : Int) (hvc : 2 ≤ vc)
    (h1 : ¬ cp ≤ visiblePagesThreshold vc + 1)
    (h2 : ¬ cp ≥ pc - visiblePagesThreshold vc + 1) :
    paginationTriggers cp pc vc =
      (1 :: consecFrom (cp - visiblePagesThreshold vc + 1) (vc - 2).toNat) ++ [pc] := by
  unfold paginationTriggers
  rw [if_neg h1, if_neg h2, map_range_add]
  have hn : (vc - 1).toNat = (vc - 2).toNat + 1 := by omega
  rw [hn, consecFrom_succ_last, ← List.cons_append, setLast_append]

theorem consecFrom_succ (a : Int) (m : Nat) :
    consecFrom a (m + 1) = a :: consecFrom (a + 1) m := rfl

theorem getLast?_append_last (l : List Int) (x : Int) :
    (l ++ [x]).getLast? = some x := by
  induction l with
  | nil => rfl
  | cons a t ih =>
    cases t with
    | nil => rfl
    | cons c t2 =>
      simp only [List.cons_append]
      rw [List.getLast?_cons_cons]
      simp only [List.cons_append] at ih
      exact ih

theorem visiblePagesThreshold_odd (vc : Int) (hodd : vc % 2 = 1) :
    vc = 2 * visiblePagesThreshold vc + 1 := by
  unfold visiblePagesThreshold
  omega

/-- The single error kind of the spec's calculator. -/
inductive PaginationError
  | invalidArgument
deriving DecidableEq

/-- Modelled from the spec: the validating entry point `computeVisiblePages`
(spec sections 4.1, 6 and 7) is absent from src/ — the source computed
property `paginationTriggers` performs no input validation — so the
`InvalidArgument` check is modelled from the spec's words around the source
computation: the call fails when `pageCount < 1`, `currentPage < 1`,
`currentPage > pageCount`, or `visibleCount < 3` or even, and otherwise
returns the source sequence. -/
def computeVisiblePages (currentPage pageCount visibleCount : Int) :
    Except PaginationError (List Int) :=
  if pageCount < 1 ∨ currentPage < 1 ∨ pageCount < currentPage ∨
      visibleCount < 3 ∨ visibleCount % 2 = 0 then
    Except.error PaginationError.invalidArgument
  else
    Except.ok (paginationTriggers currentPage pageCount visibleCount)

/-- Claim C1, evaluated at the failing input: for `currentPage = 1`,
`pageCount = 1` and the default `visibleCount = 5` (so `pageCount ≤
visibleCount`), the computation returns `[1, 2, 3, 4, 1]` — not the sequence
`[1]` that the spec's `pageCount ≤ visibleCount` shortcut requires; the code
has no such shortcut and emits pages beyond the collection range. -/
theorem c1_shortcut_eval :
    paginationTriggers 1 1 5 = [1, 2, 3, 4, 1] ∧ paginationTriggers 1 1 5 ≠ [1] := by
  decide

/-- Claim C2 counterexample: at the valid input `currentPage = 1`,
`pageCount = 2`, `visibleCount = 5` the result `[1, 2, 3, 4, 2]` is not
strictly increasing and repeats the entry `2`. -/
theorem c2_counterexample :
    ((1 : Int) ≤ 1 ∧ (1 : Int) ≤ 2 ∧ (3 : Int) ≤ 5 ∧ (5 : Int) % 2 = 1) ∧
      ¬ List.Pairwise (fun x y : Int => x < y) (paginationTriggers 1 2 5) := by
  refine ⟨by norm_num, fun h => ?_⟩
  have he : paginationTriggers 1 2 5 = [1, 2, 3, 4, 2] := by decide
  rw [he] at h
  simp [List.pairwise_cons] at h

/-- Claim C2 amended: for every valid input with `pageCount ≥ visibleCount`
the returned sequence is strictly increasing (hence duplicate-free); for
`pageCount < visibleCount` the code can repeat entries. -/
theorem c2_strict_increase (cp pc vc : Int) (hv3 : 3 ≤ vc) (hodd : vc % 2 = 1)
    (hvp : vc ≤ pc) (hc1 : 1 ≤ cp) (hc2 : cp ≤ pc) :
    List.Pairwise (fun x y : Int => x < y) (paginationTriggers cp pc vc) := by
  have ht := visiblePagesThreshold_odd vc hodd
  by_cases h1 : cp ≤ visiblePagesThreshold vc + 1
  · rw [paginationTriggers_of_nearStart cp pc vc h1]
    refine List.pairwise_append.mpr ⟨pairwise_lt_consecFrom _ _, by simp, ?_⟩
    intro x hx y hy
    rw [mem_consecFrom] at hx
    simp only [List.mem_singleton] at hy
    subst hy
    omega
  · by_cases h2 : cp ≥ pc - visiblePagesThreshold vc + 1
    · rw [paginationTriggers_of_nearEnd cp pc vc h1 h2]
      refine List.pairwise_cons.mpr ⟨fun y hy => ?_, pairwise_lt_consecFrom _ _⟩
      rw [mem_consecFrom] at hy
      omega
    · rw [paginationTriggers_of_middle cp pc vc (by omega) h1 h2]
      refine List.pairwise_append.mpr ⟨?_, by simp, ?_⟩
      · refine List.pairwise_cons.mpr ⟨fun y hy => ?_, pairwise_lt_consecFrom _ _⟩
        rw [mem_consecFrom] at hy
        omega
      · intro x hx y hy
        simp only [List.mem_singleton] at hy
        subst hy
        rcases List.mem_cons.mp hx with rfl | hx2
        · omega
        · rw [mem_consecFrom] at hx2
          omega

/-- Witness for the amended claim C2 at `currentPage = 9`, `pageCount = 18`,
`visibleCount = 5`. -/
theorem c2_strict_increase_witness :
    List.Pairwise (fun x y : Int => x < y) (paginationTriggers 9 18 5) :=
  c2_strict_increase 9 18 5 (by norm_num) (by norm_num) (by norm_num)
    (by norm_num) (by norm_num)

/-- Claim C3: the calculator fails with the `InvalidArgument` kind — and never
returns a sequence — whenever `pageCount < 1`, `currentPage < 1`,
`currentPage > pageCount`, `visibleCount < 3`, or `visibleCount` is even. -/
theorem c3_invalid_argument (cp pc vc : Int)
    (h : pc < 1 ∨ cp < 1 ∨ pc < cp ∨ vc < 3 ∨ vc % 2 = 0) :
    computeVisiblePages cp pc vc = Except.error PaginationError.invalidArgument ∧
      ∀ l : List Int, computeVisiblePages cp pc vc ≠ Except.ok l := by
  unfold computeVisiblePages
  rw [if_pos h]
  exact ⟨rfl, fun l hl => nomatch hl⟩

/-- Witness for claim C3 at the out-of-contract input `currentPage = 0`. -/
theorem c3_invalid_argument_witness :
    computeVisiblePages 0 5 5 = Except.error PaginationError.invalidArgument :=
  (c3_invalid_argument 0 5 5 (by norm_num)).1

/-- Claim C4: for every valid input the first entry of the sequence is `1`,
and whenever `pageCount > 1` the last entry is `pageCount`. -/
theorem c4_first_and_last (cp pc vc : Int) (hv3 : 3 ≤ vc) (hodd : vc % 2 = 1)
    (hc1 : 1 ≤ cp) (hc2 : cp ≤ pc) :
    (paginationTriggers cp pc vc).head? = some 1 ∧
      (1 < pc → (paginationTriggers cp pc vc).getLast? = some pc) := by
  have ht := visiblePagesThreshold_odd vc hodd
  have hm : (vc - 1).toNat = (vc - 2).toNat + 1 := by omega
  by_cases h1 : cp ≤ visiblePagesThreshold vc + 1
  · rw [paginationTriggers_of_nearStart cp pc vc h1, hm, consecFrom_succ]
    exact ⟨by rw [List.cons_append]; rfl, fun _ => getLast?_append_last _ _⟩
  · by_cases h2 : cp ≥ pc - visiblePagesThreshold vc + 1
    · rw [paginationTriggers_of_nearEnd cp pc vc h1 h2, hm, consecFrom_succ_last]
      refine ⟨rfl, fun _ => ?_⟩
      rw [← List.cons_append, getLast?_append_last]
      congr 1
      omega
    · rw [paginationTriggers_of_middle cp pc vc (by omega) h1 h2]
      exact ⟨by rw [List.cons_append]; rfl, fun _ => getLast?_append_last _ _⟩

/-- Witness for claim C4 at `currentPage = 9`, `pageCount = 18`,
`visibleCount = 5`. -/
theorem c4_first_and_last_witness :
    (paginationTriggers 9 18 5).head? = some 1 ∧
      (1 < (18 : Int) → (paginationTriggers 9 18 5).getLast? = some 18) :=
  c4_first_and_last 9 18 5 (by norm_num) (by norm_num) (by norm_num) (by norm_num)

/-- Claim C5: for every valid input with `1 < currentPage < pageCount`, the
value `currentPage` occurs in the returned sequence. -/
theorem c5_currentPage_mem (cp pc vc : Int) (hv3 : 3 ≤ vc) (hodd : vc % 2 = 1)
    (hc1 : 1 < cp) (hc2 : cp < pc) :
    cp ∈ paginationTriggers cp pc vc := by
  have ht := visiblePagesThreshold_odd vc hodd
  by_cases h1 : cp ≤ visiblePagesThreshold vc + 1
  · rw [paginationTriggers_of_nearStart cp pc vc h1]
    refine List.mem_append.mpr (Or.inl ?_)
    rw [mem_consecFrom]
    omega
  · by_cases h2 : cp ≥ pc - visiblePagesThreshold vc + 1
    · rw [paginationTriggers_of_nearEnd cp pc vc h1 h2]
      refine List.mem_cons.mpr (Or.inr ?_)
      rw [mem_consecFrom]
      omega
    · rw [paginationTriggers_of_middle cp pc vc (by omega) h1 h2]
      refine List.mem_append.mpr (Or.inl (List.mem_cons.mpr (Or.inr ?_)))
      rw [mem_consecFrom]
      omega

/-- Witness for claim C5 at `currentPage = 9`, `pageCount = 18`,
`visibleCount = 5`. -/
theorem c5_currentPage_mem_witness : (9 : Int) ∈ paginationTriggers 9 18 5 :=
  c5_currentPage_mem 9 18 5 (by norm_num) (by norm_num) (by norm_num) (by norm_num)

/-- Claim C6: for every `pageCount ≥ visibleCount` and valid `currentPage`,
the near-start and near-end guards are never simultaneously true, and exactly
one of near-start, near-end, and middle (neither) holds. -/
theorem c6_partition (cp pc vc : Int) (hv3 : 3 ≤ vc) (hodd : vc % 2 = 1)
    (hvp : vc ≤ pc) (hc1 : 1 ≤ cp) (hc2 : cp ≤ pc) :
    ¬ (nearStart cp vc ∧ nearEnd cp pc vc) ∧
      ((nearStart cp vc ∧ ¬ nearEnd cp pc vc) ∨
        (nearEnd cp pc vc ∧ ¬ nearStart cp vc) ∨
        (¬ nearStart cp vc ∧ ¬ nearEnd cp pc vc)) := by
  have ht := visiblePagesThreshold_odd vc hodd
  unfold nearStart nearEnd
  omega

/-- Witness for claim C6 at `currentPage = 9`, `pageCount = 18`,
`visibleCount = 5`. -/
theorem c6_partition_witness :
    ¬ (nearStart 9 5 ∧ nearEnd 9 18 5) ∧
      ((nearStart 9 5 ∧ ¬ nearEnd 9 18 5) ∨
        (nearEnd 9 18 5 ∧ ¬ nearStart 9 5) ∨
        (¬ nearStart 9 5 ∧ ¬ nearEnd 9 18 5)) :=
  c6_partition 9 18 5 (by norm_num) (by norm_num) (by norm_num) (by norm_num)
    (by norm_num)

/-- Claim C7: whenever `currentPage ≤ threshold + 1` the sequence is the
`visibleCount - 1` consecutive integers starting at `1` followed by
`pageCount` as the final entry; with `visibleCount = 5`, `pageCount = 18`,
both `currentPage = 1` and `currentPage = 3` yield `[1, 2, 3, 4, 18]`. -/
theorem c7_near_start (cp pc vc : Int)
    (h : cp ≤ visiblePagesThreshold vc + 1) :
    paginationTriggers cp pc vc = consecFrom 1 (vc - 1).toNat ++ [pc] ∧
      paginationTriggers 1 18 5 = [1, 2, 3, 4, 18] ∧
      paginationTriggers 3 18 5 = [1, 2, 3, 4, 18] :=
  ⟨paginationTriggers_of_nearStart cp pc vc h, by decide, by decide⟩

/-- Witness for claim C7 at `currentPage = 2`, `pageCount = 18`,
`visibleCount = 5`. -/
theorem c7_near_start_witness :
    paginationTriggers 2 18 5 = consecFrom 1 ((5 : Int) - 1).toNat ++ [18] :=
  (c7_near_start 2 18 5 (by decide)).1

/-- Claim C8 counterexample: at the valid input `currentPage = 2`,
`pageCount = 2`, `visibleCount = 5` the near-end predicate holds
(`2 ≥ 2 - 2 + 1`), yet the result `[1, 2, 3, 4, 2]` is not `1` followed by
the `visibleCount - 1` consecutive integers ending at `pageCount` (which
would be `[1, -1, 0, 1, 2]`): the near-start branch preempts it. -/
theorem c8_counterexample :
    nearEnd 2 2 5 ∧
      paginationTriggers 2 2 5 ≠ 1 :: consecFrom (2 - 5 + 2) ((5 : Int) - 1).toNat := by
  refine ⟨?_, by decide⟩
  rw [nearEnd_iff]
  decide

/-- Claim C8 amended: whenever `pageCount ≥ visibleCount` and
`currentPage ≥ pageCount - threshold + 1`, the sequence is `1` followed by
the `visibleCount - 1` consecutive integers ending at `pageCount`; for
`pageCount < visibleCount` the near-start branch can preempt this shape. -/
theorem c8_near_end (cp pc vc : Int) (hv3 : 3 ≤ vc) (hodd : vc % 2 = 1)
    (hvp : vc ≤ pc) (h : pc - visiblePagesThreshold vc + 1 ≤ cp) :
    paginationTriggers cp pc vc = 1 :: consecFrom (pc - vc + 2) (vc - 1).toNat := by
  have ht := visiblePagesThreshold_odd vc hodd
  have h1 : ¬ cp ≤ visiblePagesThreshold vc + 1 := by omega
  rw [paginationTriggers_of_nearEnd cp pc vc h1 h]
  have hs : pc - ((vc - 1).toNat : Int) + 1 = pc - vc + 2 := by omega
  rw [hs]

/-- Witness for the amended claim C8 at `currentPage = 18`,
`pageCount = 18`, `visibleCount = 5`. -/
theorem c8_near_end_witness : paginationTriggers 18 18 5 = [1, 15, 16, 17, 18] := by
  rw [c8_near_end 18 18 5 (by norm_num) (by norm_num) (by norm_num) (by decide)]
  decide

/-- Claim C9: in the middle case (neither guard holds) the sequence is `1`,
then the `visibleCount - 2` consecutive integers starting at
`currentPage - threshold + 1`, then `pageCount` forced as the final entry. -/
theorem c9_middle (cp pc vc : Int) (hv3 : 3 ≤ vc) (hodd : vc % 2 = 1)
    (h1 : ¬ nearStart cp vc) (h2 : ¬ nearEnd cp pc vc) :
    paginationTriggers cp pc vc =
      (1 :: consecFrom (cp - visiblePagesThreshold vc + 1) (vc - 2).toNat) ++ [pc] := by
  rw [nearStart_iff] at h1
  rw [nearEnd_iff] at h2
  exact paginationTriggers_of_middle cp pc vc (by omega) h1 h2

/-- Witness for claim C9: `currentPage = 9` gives `[1, 8, 9, 10, 18]`,
`currentPage = 5` gives `[1, 4, 5, 6, 18]`, and `currentPage = 16` (a middle
input, since `16 < 18 - 2 + 1`) gives `[1, 15, 16, 17, 18]`. -/
theorem c9_middle_witness :
    paginationTriggers 9 18 5 = [1, 8, 9, 10, 18] ∧
      paginationTriggers 5 18 5 = [1, 4, 5, 6, 18] ∧
      paginationTriggers 16 18 5 = [1, 15, 16, 17, 18] := by
  refine ⟨?_, ?_, ?_⟩
  · rw [c9_middle 9 18 5 (by norm_num) (by norm_num)
      (by rw [nearStart_iff]; decide) (by rw [nearEnd_iff]; decide)]
    decide
  · rw [c9_middle 5 18 5 (by norm_num) (by norm_num)
      (by rw [nearStart_iff]; decide) (by rw [nearEnd_iff]; decide)]
    decide
  · rw [c9_middle 16 18 5 (by norm_num) (by norm_num)
      (by rw [nearStart_iff]; decide) (by rw [nearEnd_iff]; decide)]
    decide

/-- Claim C10: for every odd `visibleCount ≥ 3` and any `currentPage` and
`pageCount` whatsoever, the returned sequence has length exactly
`visibleCount`; in particular a shorter output such as `[1]` for
`pageCount = 1` is unattainable. -/
theorem c10_length (cp pc vc : Int) (hv3 : 3 ≤ vc) (hodd : vc % 2 = 1) :
    ((paginationTriggers cp pc vc).length : Int) = vc := by
  unfold paginationTriggers
  by_cases h1 : cp ≤ visiblePagesThreshold vc + 1
  · rw [if_pos h1]
    simp only [List.length_append, List.length_map, List.length_range,
      List.length_cons, List.length_nil]
    omega
  · rw [if_neg h1]
    by_cases h2 : cp ≥ pc - visiblePagesThreshold vc + 1
    · rw [if_pos h2]
      simp only [List.length_cons, List.length_reverse, List.length_map,
        List.length_range]
      omega
    · rw [if_neg h2]
      rw [length_setLast]
      simp only [List.length_cons, List.length_map, List.length_range]
      omega

/-- Witness for claim C10 at the smallest page count: `currentPage = 1`,
`pageCount = 1`, `visibleCount = 5` still yields five entries. -/
theorem c10_length_witness : ((paginationTriggers 1 1 5).length : Int) = 5 :=
  c10_length 1 1 5 (by norm_num) (by norm_num)

end Pagination
